import Mathlib

/-!
Shallow embedding of the FastPay backend Firebase-to-Django sync pipeline
(files `api/sync_commands/` and
`api/management/commands/copy_firebase_to_django.py`), with theorems
settling the behavioural claims about it.

Python dictionaries fetched from Firebase are modelled as association
lists in insertion order; Python exceptions are modelled with `Except`;
database tables are modelled as lists of row records in insertion order.
-/

namespace FastPay

/-- Lookup in an association list modelling Python `dict.get(key, default)`
(first binding wins, as dict keys are unique). -/
def dictGetD (l : List (String × α)) (k : String) (d : α) : α :=
  (l.lookup k).getD d

/-! ## Python string primitives used by the sync code -/

/-- Model of finding the first occurrence of a separator character in a
Python string: returns the part before the separator and the rest after
it, or `none` when the separator does not occur. -/
def pyBreak (sep : Char) : List Char → Option (List Char × List Char)
  | [] => none
  | c :: cs =>
    if c = sep then some ([], cs)
    else
      match pyBreak sep cs with
      | none => none
      | some (l, r) => some (c :: l, r)

/-- Model of Python `str.split(sep, maxsplit)` on a list of characters:
split at most `maxsplit` times at the separator. -/
def pySplitAux (sep : Char) : Nat → List Char → List (List Char)
  | 0, cs => [cs]
  | n + 1, cs =>
    match pyBreak sep cs with
    | none => [cs]
    | some (l, r) => l :: pySplitAux sep n r

/-- Model of Python `s.split(sep, maxsplit)` for a single-character
separator, as used by `message_data.split(chr, 2)` in the sync code. -/
def pySplit (s : String) (sep : Char) (maxsplit : Nat) : List String :=
  (pySplitAux sep maxsplit s.toList).map String.mk

/-- Decimal value of a list of digit characters, most significant first. -/
def decimalValue (cs : List Char) : Nat :=
  cs.foldl (fun a c => a * 10 + (c.toNat - 48)) 0

/-- Model of Python `str.isdigit()` on the ASCII key strings of the
source: true exactly on nonempty all-digit strings. -/
def pyStrIsDigit (s : String) : Bool :=
  !s.toList.isEmpty && s.toList.all Char.isDigit

/-- Model of Python `int(s)` on the timestamp strings of the source: an
optional minus sign followed by decimal digits parses to an integer,
anything else raises `ValueError` (modelled as `Except.error` carrying
the CPython message text). -/
def pyIntParse (s : String) : Except String Int :=
  match s.toList with
  | '-' :: rest =>
    if !rest.isEmpty && rest.all Char.isDigit then .ok (-(decimalValue rest : Int))
    else .error ("invalid literal for int() with base 10: " ++ s)
  | _ =>
    if pyStrIsDigit s then .ok ((decimalValue s.toList : Nat) : Int)
    else .error ("invalid literal for int() with base 10: " ++ s)

/-- Sort key used by the limit step of `_get_messages`
(copy_firebase_to_django.py line 491): `int(x) if str(x).isdigit() else 0`. -/
def keyRank (x : String) : Nat :=
  if pyStrIsDigit x then decimalValue x.toList else 0

/-- Model of Python `str.lower()` (ASCII). -/
def pyLower (s : String) : String :=
  String.mk (s.toList.map Char.toLower)

/-! ## Message ingestion (copy_firebase_to_django.py lines 694-737;
the same per-record logic appears in sync_device_from_firebase.py
lines 187-213) -/

/-- A raw message value fetched from the source: either a structured map
(only the fields the code reads are modelled, each possibly absent), a
delimited string, or any other shape. -/
inductive MsgData where
  | dict (type? phone? body? : Option String) (read? : Option Bool)
  | str (s : String)
  | other
deriving DecidableEq

/-- The string form of a message: `message_data.split(chr 126, 2)` mapped
positionally onto type, phone, body with the defaults of lines 707-709. -/
def parseMessageString (s : String) : String × String × String :=
  let parts := pySplit s '~' 2
  (parts.getD 0 "received", parts.getD 1 "", parts.getD 2 "")

/-- Normalization of lines 716-717: anything other than `received` or
`sent` becomes `received`. -/
def normalizeMessageType (t : String) : String :=
  if t = "received" ∨ t = "sent" then t else "received"

/-- Parsed message fields before type normalization. -/
structure ParsedMsg where
  message_type : String
  phone : String
  body : String
  read : Bool
deriving DecidableEq

/-- Lines 699-713: dict records read `type`/`phone`/`body`/`read` with
defaults, string records go through the split, anything else is `none`
(the record is counted as skipped). -/
def parseMsgData : MsgData → Option ParsedMsg
  | .dict t? p? b? r? => some ⟨t?.getD "received", p?.getD "", b?.getD "", r?.getD false⟩
  | .str s =>
    let (t, p, b) := parseMessageString s
    some ⟨t, p, b, false⟩
  | .other => none

/-- A row of the relational `Message` table, restricted to the fields the
sync code writes. -/
structure MessageRow where
  device : String
  message_type : String
  phone : String
  body : String
  timestamp : Int
  read : Bool
deriving DecidableEq

/-- `Message.objects.filter(device=device, timestamp=timestamp).exists()`. -/
def messageExists (db : List MessageRow) (device : String) (ts : Int) : Bool :=
  db.any fun r => r.device == device && r.timestamp == ts

/-- State threaded through the message loop: the table plus the counters
and error list of the per-device result dict. -/
structure MsgCopyState where
  db : List MessageRow
  created : Nat
  skipped : Nat
  errors : List String
deriving DecidableEq

/-- One iteration of the message loop of `_copy_device`
(lines 694-737): parse the key as an int (a failure is caught and
recorded as `Message {ts}: {error}`), parse the record, normalize the
type, skip when the (device, timestamp) pair already exists, otherwise
create the row. -/
def copyMessagesStep (device : String) (st : MsgCopyState) (rec : String × MsgData) :
    MsgCopyState :=
  match pyIntParse rec.1 with
  | .error e => { st with errors := st.errors ++ ["Message " ++ rec.1 ++ ": " ++ e] }
  | .ok timestamp =>
    match parseMsgData rec.2 with
    | none => { st with skipped := st.skipped + 1 }
    | some pm =>
      let mt := normalizeMessageType pm.message_type
      if messageExists st.db device timestamp then
        { st with skipped := st.skipped + 1 }
      else
        { st with
          db := st.db ++ [⟨device, mt, pm.phone, pm.body, timestamp, pm.read⟩],
          created := st.created + 1 }

/-- The message loop of `_copy_device` over the fetched records in
insertion order, starting from table `db` with zeroed counters. -/
def copyMessages (device : String) (msgs : List (String × MsgData)) (db : List MessageRow) :
    MsgCopyState :=
  msgs.foldl (copyMessagesStep device) ⟨db, 0, 0, []⟩

/-! ## Notification ingestion (copy_firebase_to_django.py lines 742-787;
sync_device_from_firebase.py lines 217-244 has the same skip-existing
semantics via get_or_create) -/

/-- A raw notification value fetched from the source: a map with
string-valued fields, a delimited string, or any other shape. -/
inductive NotifData where
  | dict (fields : List (String × String))
  | str (s : String)
  | other
deriving DecidableEq

/-- Parsed notification fields. -/
structure ParsedNotif where
  package_name : String
  title : String
  text : String
  extra : List (String × String)
deriving DecidableEq

/-- Lines 748-763: dict records read `package` (falling back to
`packageName` when empty), `title`, `text` (falling back to `body`), the
remaining fields become `extra`; string records go through the split;
anything else is `none` (counted as skipped). -/
def parseNotifData : NotifData → Option ParsedNotif
  | .dict fields =>
    let package_name :=
      let p := dictGetD fields "package" ""
      if p == "" then dictGetD fields "packageName" "" else p
    let title := dictGetD fields "title" ""
    let text :=
      let t := dictGetD fields "text" ""
      if t == "" then dictGetD fields "body" "" else t
    let extra := fields.filter fun kv =>
      !(kv.1 == "package" || kv.1 == "packageName" || kv.1 == "title" ||
        kv.1 == "text" || kv.1 == "body")
    some ⟨package_name, title, text, extra⟩
  | .str s =>
    let parts := pySplit s '~' 2
    some ⟨parts.getD 0 "", parts.getD 1 "", parts.getD 2 "", []⟩
  | .other => none

/-- A row of the relational `Notification` table, restricted to the
fields the sync code writes. -/
structure NotificationRow where
  device : String
  package_name : String
  title : String
  text : String
  timestamp : Int
  extra : List (String × String)
deriving DecidableEq

/-- `Notification.objects.filter(device=device, timestamp=timestamp).exists()`. -/
def notificationExists (db : List NotificationRow) (device : String) (ts : Int) : Bool :=
  db.any fun r => r.device == device && r.timestamp == ts

/-- State threaded through the notification loop. -/
structure NotifCopyState where
  db : List NotificationRow
  created : Nat
  skipped : Nat
  errors : List String
deriving DecidableEq

/-- One iteration of the notification loop of `_copy_device`
(lines 743-787): parse the key as an int (a failure is recorded as
`Notification {ts}: {error}`), parse the record, skip when the package
name is empty or when the (device, timestamp) pair already exists,
otherwise create the row. -/
def copyNotificationsStep (device : String) (st : NotifCopyState) (rec : String × NotifData) :
    NotifCopyState :=
  match pyIntParse rec.1 with
  | .error e => { st with errors := st.errors ++ ["Notification " ++ rec.1 ++ ": " ++ e] }
  | .ok timestamp =>
    match parseNotifData rec.2 with
    | none => { st with skipped := st.skipped + 1 }
    | some pn =>
      if pn.package_name == "" then
        { st with skipped := st.skipped + 1 }
      else if notificationExists st.db device timestamp then
        { st with skipped := st.skipped + 1 }
      else
        { st with
          db := st.db ++ [⟨device, pn.package_name, pn.title, pn.text, timestamp, pn.extra⟩],
          created := st.created + 1 }

/-- The notification loop of `_copy_device` over the fetched records in
insertion order. -/
def copyNotifications (device : String) (recs : List (String × NotifData))
    (db : List NotificationRow) : NotifCopyState :=
  recs.foldl (copyNotificationsStep device) ⟨db, 0, 0, []⟩

/-! ## Limit application of `_get_messages`
(copy_firebase_to_django.py lines 487-496) -/

/-- The pruning step of `_get_messages`: when the fetched map is nonempty
and the limit nonzero, sort the entries by key numerically descending
(Python sorted with reverse=True is stable) and keep the first `limit`;
otherwise return the map unchanged. -/
def get_messages_limit (messages : List (String × α)) (limit : Nat) :
    List (String × α) :=
  if messages.isEmpty || limit == 0 then messages
  else (messages.mergeSort fun a b => keyRank b.1 ≤ keyRank a.1).take limit

/-! ## isActive normalization (copy_firebase_to_django.py lines 643-648;
identical in sync_device_from_firebase.py lines 130-134) -/

/-- A Python value as it can arrive in the `isActive` field. -/
inductive PyVal where
  | str (s : String)
  | bool (b : Bool)
  | int (n : Int)
  | none
deriving DecidableEq

/-- Python truthiness on the modelled values. -/
def pyTruthy : PyVal → Bool
  | .str s => !(s == "")
  | .bool b => b
  | .int n => !(n == 0)
  | .none => false

/-- Lines 645-648: a string is active when its lowercase form is one of
the five markers, any other value goes through `bool(...)`. -/
def normalize_is_active (v : PyVal) : Bool :=
  match v with
  | .str s => pyLower s ∈ ["opened", "active", "true", "1", "yes"]
  | _ => pyTruthy v

/-! ## keep_latest defaults (sync_commands/commands/messages.py line 13
and sync_commands/commands/contacts.py line 13).  The called
`sync_*_from_firebase` helpers live in `api/utils/firebase.py`, outside
the sources at hand; only the computed `keep_latest` argument is
modelled. -/

/-- `options.get(str1, 100)` of MessagesSyncCommand.run, where str1 is
the key `keep_latest`. -/
def messages_run_keep_latest (options : List (String × Nat)) : Nat :=
  dictGetD options "keep_latest" 100

/-- `options.get(str1, 0)` of ContactsSyncCommand.run, where str1 is the
key `keep_latest`. -/
def contacts_run_keep_latest (options : List (String × Nat)) : Nat :=
  dictGetD options "keep_latest" 0

/-! ## The aggregation driver run_all_sync_commands
(sync_commands/init module lines 15-78) -/

/-- The result dict returned by a command run, restricted to the keys the
driver reads; a missing key reads as the default, like `dict.get(k, 0)`. -/
structure CmdResult where
  errors : List String := []
  messages_created : Nat := 0
  messages_skipped : Nat := 0
  notifications_created : Nat := 0
  notifications_updated : Nat := 0
  contacts_created : Nat := 0
  contacts_updated : Nat := 0
deriving DecidableEq

/-- A registered sync command: a name and a run function; a Python
exception raised by run is modelled as `Except.error` with its message. -/
structure SyncCmdSpec where
  name : String
  run : String → List (String × Nat) → Except String CmdResult

/-- Per-device entry of `device_results`: the id plus the per-command
outcome map in insertion order (`Except.error e` models the
`(error, str e)` singleton dict of line 70). -/
structure DeviceResult where
  device_id : String
  commands : List (String × Except String CmdResult)

/-- The combined result dict of run_all_sync_commands (lines 37-49). -/
structure RunAllResult where
  total_devices : Nat
  devices_synced : Nat
  devices_failed : Nat
  device_results : List DeviceResult
  errors : List String
  total_messages_created : Nat
  total_messages_skipped : Nat
  total_notifications_created : Nat
  total_notifications_updated : Nat
  total_contacts_created : Nat
  total_contacts_updated : Nat

/-- State of the inner command loop: the accumulated result, the
device_ok flag, and the per-command outcomes of the current device. -/
structure CmdLoopState where
  res : RunAllResult
  device_ok : Bool
  commands : List (String × Except String CmdResult)

/-- One iteration of the inner loop (lines 54-71): run the command with
its options, record its outcome, clear device_ok when it raised or
returned a nonempty errors list, add its counts to the totals, and on a
raise append `{device_id} ({name}): {error}` to the flat error list. -/
def runCmdStep (device_id : String) (obn : List (String × List (String × Nat)))
    (st : CmdLoopState) (cmd : SyncCmdSpec) : CmdLoopState :=
  let opts := dictGetD obn cmd.name []
  match cmd.run device_id opts with
  | .ok r =>
    { res := { st.res with
        total_messages_created := st.res.total_messages_created + r.messages_created
        total_messages_skipped := st.res.total_messages_skipped + r.messages_skipped
        total_notifications_created := st.res.total_notifications_created + r.notifications_created
        total_notifications_updated := st.res.total_notifications_updated + r.notifications_updated
        total_contacts_created := st.res.total_contacts_created + r.contacts_created
        total_contacts_updated := st.res.total_contacts_updated + r.contacts_updated }
      device_ok := st.device_ok && r.errors.isEmpty
      commands := st.commands ++ [(cmd.name, .ok r)] }
  | .error e =>
    { res := { st.res with
        errors := st.res.errors ++ [device_id ++ " (" ++ cmd.name ++ "): " ++ e] }
      device_ok := false
      commands := st.commands ++ [(cmd.name, .error e)] }

/-- One iteration of the outer device loop (lines 51-76): run every
command, append the device result, and bump devices_synced or
devices_failed according to device_ok. -/
def runDeviceStep (cmds : List SyncCmdSpec) (obn : List (String × List (String × Nat)))
    (res : RunAllResult) (device_id : String) : RunAllResult :=
  let st := cmds.foldl (runCmdStep device_id obn) (⟨res, true, []⟩ : CmdLoopState)
  let res1 := { st.res with
    device_results := st.res.device_results ++ [(⟨device_id, st.commands⟩ : DeviceResult)] }
  if st.device_ok then { res1 with devices_synced := res1.devices_synced + 1 }
  else { res1 with devices_failed := res1.devices_failed + 1 }

/-- run_all_sync_commands for an explicit device list: the initial result
dict of lines 37-49 threaded through the device loop.  Exceptions from a
command are values of the `Except` type here, so the driver itself is a
total function: nothing propagates to the caller. -/
def run_all_sync_commands (device_ids : List String) (cmds : List SyncCmdSpec)
    (obn : List (String × List (String × Nat))) : RunAllResult :=
  device_ids.foldl (runDeviceStep cmds obn)
    { total_devices := device_ids.length
      devices_synced := 0
      devices_failed := 0
      device_results := []
      errors := []
      total_messages_created := 0
      total_messages_skipped := 0
      total_notifications_created := 0
      total_notifications_updated := 0
      total_contacts_created := 0
      total_contacts_updated := 0 }

/-! ## Spec-side vocabulary for the driver

The following definitions restate, directly from the words of the spec,
what each field of the combined result should contain; the
characterization lemma below proves the driver equal to them. -/

/-- The outcome of one command for one device: its run applied to the
options registered under its name. -/
def specCmdOutcome (obn : List (String × List (String × Nat))) (did : String)
    (c : SyncCmdSpec) : Except String CmdResult :=
  c.run did (dictGetD obn c.name [])

/-- Per-command outcomes of one device, in registration order. -/
def specDeviceOutcomes (cmds : List SyncCmdSpec) (obn : List (String × List (String × Nat)))
    (did : String) : List (String × Except String CmdResult) :=
  cmds.map fun c => (c.name, specCmdOutcome obn did c)

/-- Device-level success: every command neither raised nor returned a
nonempty errors list. -/
def specDeviceOk (cmds : List SyncCmdSpec) (obn : List (String × List (String × Nat)))
    (did : String) : Bool :=
  cmds.all fun c =>
    match specCmdOutcome obn did c with
    | .ok r => r.errors.isEmpty
    | .error _ => false

/-- The flat error strings contributed by one device, one per raising
command, in registration order. -/
def specDeviceErrors (cmds : List SyncCmdSpec) (obn : List (String × List (String × Nat)))
    (did : String) : List String :=
  cmds.filterMap fun c =>
    match specCmdOutcome obn did c with
    | .error e => some (did ++ " (" ++ c.name ++ "): " ++ e)
    | .ok _ => none

/-- Sum of one counter over the commands of one device that returned
normally (a raising command contributes 0). -/
def specOkSum (f : CmdResult → Nat) (cmds : List SyncCmdSpec)
    (obn : List (String × List (String × Nat))) (did : String) : Nat :=
  (cmds.map fun c =>
    match specCmdOutcome obn did c with
    | .ok r => f r
    | .error _ => 0).sum

/-- Sum of one counter over all devices and all normally-returning
commands. -/
def specTotal (f : CmdResult → Nat) (ids : List String) (cmds : List SyncCmdSpec)
    (obn : List (String × List (String × Nat))) : Nat :=
  (ids.map (specOkSum f cmds obn)).sum

/-- Characterization of the inner command loop, for any starting state. -/
theorem cmdLoop_eq (did : String) (obn : List (String × List (String × Nat)))
    (cmds : List SyncCmdSpec) (st : CmdLoopState) :
    cmds.foldl (runCmdStep did obn) st =
      { res := { st.res with
          errors := st.res.errors ++ specDeviceErrors cmds obn did
          total_messages_created :=
            st.res.total_messages_created + specOkSum (·.messages_created) cmds obn did
          total_messages_skipped :=
            st.res.total_messages_skipped + specOkSum (·.messages_skipped) cmds obn did
          total_notifications_created :=
            st.res.total_notifications_created + specOkSum (·.notifications_created) cmds obn did
          total_notifications_updated :=
            st.res.total_notifications_updated + specOkSum (·.notifications_updated) cmds obn did
          total_contacts_created :=
            st.res.total_contacts_created + specOkSum (·.contacts_created) cmds obn did
          total_contacts_updated :=
            st.res.total_contacts_updated + specOkSum (·.contacts_updated) cmds obn did }
        device_ok := st.device_ok && specDeviceOk cmds obn did
        commands := st.commands ++ specDeviceOutcomes cmds obn did } := by
  induction cmds generalizing st with
  | nil =>
    simp [specDeviceErrors, specOkSum, specDeviceOutcomes, specDeviceOk]
  | cons c cs ih =>
    rw [List.foldl_cons, ih]
    cases h : specCmdOutcome obn did c with
    | ok r =>
      simp [runCmdStep, specCmdOutcome] at h
      simp [runCmdStep, h, specDeviceErrors, specOkSum, specDeviceOutcomes, specDeviceOk,
        specCmdOutcome, List.filterMap_cons, Nat.add_assoc, Bool.and_assoc,
        List.append_assoc]
    | error e =>
      simp [runCmdStep, specCmdOutcome] at h
      simp [runCmdStep, h, specDeviceErrors, specOkSum, specDeviceOutcomes, specDeviceOk,
        specCmdOutcome, List.filterMap_cons, Nat.add_assoc, Bool.and_assoc,
        List.append_assoc]

/-- Characterization of the outer device loop, for any starting result. -/
theorem deviceLoop_eq (cmds : List SyncCmdSpec) (obn : List (String × List (String × Nat)))
    (ids : List String) (res : RunAllResult) :
    ids.foldl (runDeviceStep cmds obn) res =
      { total_devices := res.total_devices
        devices_synced := res.devices_synced + ids.countP (specDeviceOk cmds obn)
        devices_failed := res.devices_failed + ids.countP (fun d => !specDeviceOk cmds obn d)
        device_results := res.device_results ++
          ids.map (fun d => ⟨d, specDeviceOutcomes cmds obn d⟩)
        errors := res.errors ++ ids.flatMap (specDeviceErrors cmds obn)
        total_messages_created :=
          res.total_messages_created + specTotal (·.messages_created) ids cmds obn
        total_messages_skipped :=
          res.total_messages_skipped + specTotal (·.messages_skipped) ids cmds obn
        total_notifications_created :=
          res.total_notifications_created + specTotal (·.notifications_created) ids cmds obn
        total_notifications_updated :=
          res.total_notifications_updated + specTotal (·.notifications_updated) ids cmds obn
        total_contacts_created :=
          res.total_contacts_created + specTotal (·.contacts_created) ids cmds obn
        total_contacts_updated :=
          res.total_contacts_updated + specTotal (·.contacts_updated) ids cmds obn } := by
  induction ids generalizing res with
  | nil => simp [specTotal]
  | cons d ds ih =>
    rw [List.foldl_cons, ih]
    cases h : specDeviceOk cmds obn d with
    | true =>
      simp [runDeviceStep, cmdLoop_eq, h, specTotal, List.countP_cons,
        Nat.add_assoc, List.append_assoc, Nat.add_comm, Nat.add_left_comm]
    | false =>
      simp [runDeviceStep, cmdLoop_eq, h, specTotal, List.countP_cons,
        Nat.add_assoc, List.append_assoc, Nat.add_comm, Nat.add_left_comm]

/-- C1: for an explicit device list, run_all_sync_commands runs every
registered command for every device in registration order
(device_results lists, per device, the outcome of each registered
command in order); a raising command contributes the string
`{device_id} ({command_name}): {error}` to the flat errors list while
remaining commands and devices still run; a device counts toward
devices_synced exactly when every command neither raised nor returned a
nonempty errors list, otherwise toward devices_failed; and the aggregate
totals sum the counts of the commands that returned normally, also on
devices where another command failed. -/
theorem C1_run_all_characterization (ids : List String) (cmds : List SyncCmdSpec)
    (obn : List (String × List (String × Nat))) :
    run_all_sync_commands ids cmds obn =
      { total_devices := ids.length
        devices_synced := ids.countP (specDeviceOk cmds obn)
        devices_failed := ids.countP (fun d => !specDeviceOk cmds obn d)
        device_results := ids.map (fun d => ⟨d, specDeviceOutcomes cmds obn d⟩)
        errors := ids.flatMap (specDeviceErrors cmds obn)
        total_messages_created := specTotal (·.messages_created) ids cmds obn
        total_messages_skipped := specTotal (·.messages_skipped) ids cmds obn
        total_notifications_created := specTotal (·.notifications_created) ids cmds obn
        total_notifications_updated := specTotal (·.notifications_updated) ids cmds obn
        total_contacts_created := specTotal (·.contacts_created) ids cmds obn
        total_contacts_updated := specTotal (·.contacts_updated) ids cmds obn } := by
  unfold run_all_sync_commands
  rw [deviceLoop_eq]
  simp

/-- C9: for an explicit device list the driver returns normally (it is a
total function: command exceptions are data of the `Except` type), and
the result satisfies devices_synced + devices_failed = total_devices =
number of devices = number of device_results, the device ids of
device_results are exactly the input list, and for a duplicate-free
input every device appears exactly once in device_results. -/
theorem C9_run_all_invariants (ids : List String) (cmds : List SyncCmdSpec)
    (obn : List (String × List (String × Nat))) :
    (run_all_sync_commands ids cmds obn).devices_synced +
        (run_all_sync_commands ids cmds obn).devices_failed =
        (run_all_sync_commands ids cmds obn).total_devices ∧
    (run_all_sync_commands ids cmds obn).total_devices = ids.length ∧
    (run_all_sync_commands ids cmds obn).device_results.length = ids.length ∧
    (run_all_sync_commands ids cmds obn).device_results.map DeviceResult.device_id = ids ∧
    (ids.Nodup → ∀ d ∈ ids,
      ((run_all_sync_commands ids cmds obn).device_results.map
        DeviceResult.device_id).count d = 1) := by
  unfold run_all_sync_commands
  rw [deviceLoop_eq]
  have hmap : (ids.map (fun d => (⟨d, specDeviceOutcomes cmds obn d⟩ : DeviceResult))).map
      DeviceResult.device_id = ids := by
    rw [List.map_map]
    have h2 : (DeviceResult.device_id ∘ fun d =>
        (⟨d, specDeviceOutcomes cmds obn d⟩ : DeviceResult)) = fun d => d := rfl
    rw [h2, List.map_id']
  refine ⟨?_, by simp, by simp, ?_, ?_⟩
  · have hperm := (List.filter_append_perm (specDeviceOk cmds obn) ids).length_eq
    rw [List.length_append] at hperm
    simp only [Nat.zero_add, List.countP_eq_length_filter]
    omega
  · simpa using hmap
  · intro hnd d hd
    simp only [List.nil_append, hmap]
    exact List.count_eq_one_of_mem hnd hd

/-- Witness for C9 at a concrete input. -/
theorem C9_run_all_invariants_witness :
    ((run_all_sync_commands ["dev1", "dev2"] [] []).device_results.map
      DeviceResult.device_id).count "dev1" = 1 :=
  (C9_run_all_invariants ["dev1", "dev2"] [] []).2.2.2.2 (by decide) "dev1" (by decide)

/-! ## Lemmas about the message loop -/

/-- The (device, timestamp) natural keys of a message table. -/
def msgKeys (db : List MessageRow) : List (String × Int) :=
  db.map fun r => (r.device, r.timestamp)

/-- Step equation: a key that does not parse as an int appends the
per-record error string and changes nothing else. -/
theorem copyMessagesStep_err (device : String) (st : MsgCopyState) (rec : String × MsgData)
    (e : String) (h : pyIntParse rec.1 = .error e) :
    copyMessagesStep device st rec =
      { st with errors := st.errors ++ ["Message " ++ rec.1 ++ ": " ++ e] } := by
  unfold copyMessagesStep
  rw [h]

/-- Step equation: a record that is neither a map nor a string is
counted as skipped. -/
theorem copyMessagesStep_other (device : String) (st : MsgCopyState) (rec : String × MsgData)
    (t : Int) (h : pyIntParse rec.1 = .ok t) (h2 : parseMsgData rec.2 = none) :
    copyMessagesStep device st rec = { st with skipped := st.skipped + 1 } := by
  unfold copyMessagesStep
  rw [h, h2]

/-- Step equation: a record whose key already exists is counted as
skipped and the table is untouched. -/
theorem copyMessagesStep_dup (device : String) (st : MsgCopyState) (rec : String × MsgData)
    (t : Int) (pm : ParsedMsg) (h : pyIntParse rec.1 = .ok t)
    (h2 : parseMsgData rec.2 = some pm) (h3 : messageExists st.db device t = true) :
    copyMessagesStep device st rec = { st with skipped := st.skipped + 1 } := by
  unfold copyMessagesStep
  rw [h, h2]
  simp [h3]

/-- Step equation: a record with a fresh key appends the new row and
counts as created. -/
theorem copyMessagesStep_create (device : String) (st : MsgCopyState) (rec : String × MsgData)
    (t : Int) (pm : ParsedMsg) (h : pyIntParse rec.1 = .ok t)
    (h2 : parseMsgData rec.2 = some pm) (h3 : messageExists st.db device t = false) :
    copyMessagesStep device st rec =
      { st with
        db := st.db ++ [⟨device, normalizeMessageType pm.message_type, pm.phone, pm.body,
          t, pm.read⟩]
        created := st.created + 1 } := by
  unfold copyMessagesStep
  rw [h, h2]
  simp [h3]

/-- The existence check agrees with membership of the natural key. -/
theorem messageExists_iff (db : List MessageRow) (d : String) (ts : Int) :
    messageExists db d ts = true ↔ (d, ts) ∈ msgKeys db := by
  simp only [messageExists, msgKeys, List.any_eq_true, List.mem_map, Bool.and_eq_true,
    beq_iff_eq]
  constructor
  · rintro ⟨r, hr, h1, h2⟩
    exact ⟨r, hr, by rw [h1, h2]⟩
  · rintro ⟨r, hr, h⟩
    exact ⟨r, hr, congrArg Prod.fst h, congrArg Prod.snd h⟩

/-- One message step only appends to the table. -/
theorem copyMessagesStep_db_extend (device : String) (st : MsgCopyState)
    (rec : String × MsgData) :
    ∃ t, (copyMessagesStep device st rec).db = st.db ++ t := by
  unfold copyMessagesStep
  cases pyIntParse rec.1 with
  | error e => exact ⟨[], by simp⟩
  | ok ts =>
    cases parseMsgData rec.2 with
    | none => exact ⟨[], by simp⟩
    | some pm =>
      by_cases h : messageExists st.db device ts
      · exact ⟨[], by simp [h]⟩
      · exact ⟨[⟨device, normalizeMessageType pm.message_type, pm.phone, pm.body, ts, pm.read⟩],
          by simp [h]⟩

/-- The message loop only appends to the table. -/
theorem copyMessagesLoop_db_extend (device : String) (l : List (String × MsgData)) :
    ∀ st : MsgCopyState, ∃ t, (l.foldl (copyMessagesStep device) st).db = st.db ++ t := by
  induction l with
  | nil => exact fun st => ⟨[], by simp⟩
  | cons x xs ih =>
    intro st
    obtain ⟨t1, h1⟩ := copyMessagesStep_db_extend device st x
    obtain ⟨t2, h2⟩ := ih (copyMessagesStep device st x)
    exact ⟨t1 ++ t2, by rw [List.foldl_cons, h2, h1, List.append_assoc]⟩

/-- A key present in the table stays present through the loop. -/
theorem copyMessagesLoop_exists_mono (device : String) (l : List (String × MsgData))
    (st : MsgCopyState) (d : String) (ts : Int)
    (h : messageExists st.db d ts = true) :
    messageExists (l.foldl (copyMessagesStep device) st).db d ts = true := by
  obtain ⟨t, ht⟩ := copyMessagesLoop_db_extend device l st
  rw [ht]
  simp only [messageExists, List.any_append] at h ⊢
  rw [h, Bool.true_or]

/-- After the loop, every record of the batch that parses has its
(device, timestamp) key in the table. -/
theorem copyMessagesLoop_establishes (device : String) (l : List (String × MsgData)) :
    ∀ (st : MsgCopyState) (ts : String) (dm : MsgData) (t : Int) (pm : ParsedMsg),
      (ts, dm) ∈ l → pyIntParse ts = .ok t → parseMsgData dm = some pm →
      messageExists (l.foldl (copyMessagesStep device) st).db device t = true := by
  induction l with
  | nil => intro _ _ _ _ _ h; cases h
  | cons x xs ih =>
    intro st ts dm t pm hmem hparse hdata
    rw [List.foldl_cons]
    rcases List.mem_cons.mp hmem with heq | htail
    · subst heq
      apply copyMessagesLoop_exists_mono
      unfold copyMessagesStep
      simp only [hparse, hdata]
      by_cases h : messageExists st.db device t
      · simp [h]
      · simp only [h, Bool.false_eq_true, if_false]
        simp [messageExists, List.any_append]
    · exact ih _ ts dm t pm htail hparse hdata

/-- If every parsing record of the batch already has its key in the
table, the loop creates nothing. -/
theorem copyMessagesLoop_no_create (device : String) (l : List (String × MsgData)) :
    ∀ st : MsgCopyState,
      (∀ (ts : String) (dm : MsgData) (t : Int) (pm : ParsedMsg),
        (ts, dm) ∈ l → pyIntParse ts = .ok t → parseMsgData dm = some pm →
        messageExists st.db device t = true) →
      (l.foldl (copyMessagesStep device) st).created = st.created := by
  induction l with
  | nil => intro st _; rfl
  | cons x xs ih =>
    intro st hall
    rw [List.foldl_cons]
    have hstep : (copyMessagesStep device st x).db = st.db ∧
        (copyMessagesStep device st x).created = st.created := by
      unfold copyMessagesStep
      cases hp : pyIntParse x.1 with
      | error e => simp
      | ok t =>
        cases hd : parseMsgData x.2 with
        | none => simp
        | some pm =>
          have := hall x.1 x.2 t pm (by exact List.mem_cons_self x xs) hp hd
          simp [this]
    rw [ih _ (fun ts dm t pm hmem hp hd => by
      rw [hstep.1]; exact hall ts dm t pm (List.mem_cons_of_mem x hmem) hp hd)]
    exact hstep.2

/-- One message step preserves distinctness of the natural keys. -/
theorem copyMessagesStep_nodup (device : String) (st : MsgCopyState)
    (rec : String × MsgData) (h : (msgKeys st.db).Nodup) :
    (msgKeys (copyMessagesStep device st rec).db).Nodup := by
  unfold copyMessagesStep
  cases pyIntParse rec.1 with
  | error e => simpa
  | ok ts =>
    cases parseMsgData rec.2 with
    | none => simpa
    | some pm =>
      by_cases hex : messageExists st.db device ts
      · simpa [hex]
      · simp only [hex, Bool.false_eq_true, if_false]
        have hnot : (device, ts) ∉ msgKeys st.db := fun hc =>
          hex ((messageExists_iff st.db device ts).mpr hc)
        simp only [msgKeys, List.map_append, List.map_cons, List.map_nil]
        rw [List.nodup_append]
        refine ⟨h, List.nodup_singleton _, ?_⟩
        intro a ha hc
        rw [List.mem_singleton] at hc
        exact hnot (hc ▸ ha)

/-- The message loop preserves distinctness of the natural keys. -/
theorem copyMessagesLoop_nodup (device : String) (l : List (String × MsgData)) :
    ∀ st : MsgCopyState, (msgKeys st.db).Nodup →
      (msgKeys ((l.foldl (copyMessagesStep device) st)).db).Nodup := by
  induction l with
  | nil => exact fun _ h => h
  | cons x xs ih =>
    intro st h
    rw [List.foldl_cons]
    exact ih _ (copyMessagesStep_nodup device st x h)

/-- C3: message ingestion is create-only and keyed by (device,
timestamp): the loop only ever appends rows (an existing row is skipped,
never overwritten), starting from a table with distinct natural keys any
run keeps the keys distinct (so at most one row per (device, timestamp)
ever exists), and a second run of the same batch against the table
produced by the first run creates zero rows. -/
theorem C3_message_idempotence (device : String) (msgs : List (String × MsgData))
    (db : List MessageRow) (h : (msgKeys db).Nodup) :
    (∃ t, (copyMessages device msgs db).db = db ++ t) ∧
    (msgKeys (copyMessages device msgs db).db).Nodup ∧
    (copyMessages device msgs (copyMessages device msgs db).db).created = 0 := by
  refine ⟨?_, ?_, ?_⟩
  · exact copyMessagesLoop_db_extend device msgs ⟨db, 0, 0, []⟩
  · exact copyMessagesLoop_nodup device msgs ⟨db, 0, 0, []⟩ h
  · exact copyMessagesLoop_no_create device msgs ⟨(copyMessages device msgs db).db, 0, 0, []⟩
      (fun ts dm t pm hmem hp hd =>
        copyMessagesLoop_establishes device msgs ⟨db, 0, 0, []⟩ ts dm t pm hmem hp hd)

/-- Witness for C3 at a concrete input: one message, synced twice. -/
theorem C3_message_idempotence_witness :
    (msgKeys (copyMessages "dev1" [("100", MsgData.dict (some "sent") (some "+1") (some "hi")
      (some false))] []).db).Nodup ∧
    (copyMessages "dev1" [("100", MsgData.dict (some "sent") (some "+1") (some "hi")
      (some false))] (copyMessages "dev1" [("100", MsgData.dict (some "sent") (some "+1")
      (some "hi") (some false))] []).db).created = 0 :=
  ⟨(C3_message_idempotence "dev1" _ [] (by decide)).2.1,
   (C3_message_idempotence "dev1" _ [] (by decide)).2.2⟩

/-- Splitting of the message loop state: the table evolution depends
only on the starting table, and the counters and error list accumulate
on top of the starting values. -/
theorem copyMessagesLoop_normalize (device : String) (l : List (String × MsgData)) :
    ∀ (db : List MessageRow) (c s : Nat) (e : List String),
      l.foldl (copyMessagesStep device) ⟨db, c, s, e⟩ =
        { db := (l.foldl (copyMessagesStep device) ⟨db, 0, 0, []⟩).db
          created := c + (l.foldl (copyMessagesStep device) ⟨db, 0, 0, []⟩).created
          skipped := s + (l.foldl (copyMessagesStep device) ⟨db, 0, 0, []⟩).skipped
          errors := e ++ (l.foldl (copyMessagesStep device) ⟨db, 0, 0, []⟩).errors } := by
  induction l with
  | nil => intro db c s e; simp
  | cons x xs ih =>
    intro db c s e
    rw [List.foldl_cons, List.foldl_cons]
    cases hp : pyIntParse x.1 with
    | error err =>
      rw [copyMessagesStep_err device _ x err hp, copyMessagesStep_err device _ x err hp]
      simp only
      rw [ih db c s (e ++ ["Message " ++ x.1 ++ ": " ++ err]),
        ih db 0 0 ([] ++ ["Message " ++ x.1 ++ ": " ++ err])]
      simp [List.append_assoc]
    | ok t =>
      cases hd : parseMsgData x.2 with
      | none =>
        rw [copyMessagesStep_other device _ x t hp hd, copyMessagesStep_other device _ x t hp hd]
        simp only
        rw [ih db c (s + 1) e, ih db 0 (0 + 1) []]
        simp [Nat.add_assoc, Nat.add_comm, Nat.add_left_comm]
      | some pm =>
        by_cases hex : messageExists db device t
        · rw [copyMessagesStep_dup device _ x t pm hp hd hex,
            copyMessagesStep_dup device _ x t pm hp hd hex]
          simp only
          rw [ih db c (s + 1) e, ih db 0 (0 + 1) []]
          simp [Nat.add_assoc, Nat.add_comm, Nat.add_left_comm]
        · rw [copyMessagesStep_create device _ x t pm hp hd (by simpa using hex),
            copyMessagesStep_create device _ x t pm hp hd (by simpa using hex)]
          simp only
          rw [ih _ (c + 1) s e, ih _ (0 + 1) 0 []]
          simp [Nat.add_assoc, Nat.add_comm, Nat.add_left_comm]

/-- The string form of a message record always parses, to the split
parts with read false. -/
theorem parseMsgData_str (s : String) :
    parseMsgData (MsgData.str s) = some ⟨(parseMessageString s).1,
      (parseMessageString s).2.1, (parseMessageString s).2.2, false⟩ := by
  unfold parseMsgData
  rcases hps : parseMessageString s with ⟨a, b, c⟩
  simp [hps]

/-- C5 counterexample: a string-format message with a single segment
(fewer than 3) is neither skipped nor recorded as an error: it is
created, with the missing parts defaulting to empty. -/
theorem C5_counterexample :
    (pySplit "sent" '~' 2).length < 3 ∧
    (copyMessages "dev1" [("100", MsgData.str "sent")] []).created = 1 ∧
    (copyMessages "dev1" [("100", MsgData.str "sent")] []).skipped = 0 ∧
    (copyMessages "dev1" [("100", MsgData.str "sent")] []).errors = [] ∧
    (copyMessages "dev1" [("100", MsgData.str "sent")] []).db =
      [⟨"dev1", "sent", "", "", 100, false⟩] := by
  refine ⟨by decide, ?_, ?_, ?_, ?_⟩ <;> rfl

/-- C5 as amended: a record with an unparseable timestamp appends the
per-record error string `Message {ts}: {error}` and changes nothing
else, so subsequent records are processed exactly as without it; a
record that is neither a map nor a string increments skipped and
likewise does not disturb the rest of the batch; and a string-format
record, regardless of its number of segments, is created like a
well-formed record when its key is fresh, with missing parts empty. -/
theorem C5_amended_malformed_records (device : String) (db : List MessageRow)
    (pre post : List (String × MsgData)) (ts : String) (d : MsgData) :
    (∀ e, pyIntParse ts = .error e →
      (copyMessages device (pre ++ (ts, d) :: post) db).db =
        (copyMessages device (pre ++ post) db).db ∧
      (copyMessages device (pre ++ (ts, d) :: post) db).created =
        (copyMessages device (pre ++ post) db).created ∧
      (copyMessages device (pre ++ (ts, d) :: post) db).skipped =
        (copyMessages device (pre ++ post) db).skipped ∧
      ("Message " ++ ts ++ ": " ++ e) ∈ (copyMessages device (pre ++ (ts, d) :: post) db).errors) ∧
    (∀ t, pyIntParse ts = .ok t → parseMsgData d = none →
      (copyMessages device (pre ++ (ts, d) :: post) db).db =
        (copyMessages device (pre ++ post) db).db ∧
      (copyMessages device (pre ++ (ts, d) :: post) db).created =
        (copyMessages device (pre ++ post) db).created ∧
      (copyMessages device (pre ++ (ts, d) :: post) db).skipped =
        (copyMessages device (pre ++ post) db).skipped + 1) ∧
    (∀ t s (st : MsgCopyState), pyIntParse ts = .ok t → d = MsgData.str s →
      messageExists st.db device t = false →
      copyMessagesStep device st (ts, d) =
        { st with
          db := st.db ++ [⟨device, normalizeMessageType (parseMessageString s).1,
            (parseMessageString s).2.1, (parseMessageString s).2.2, t, false⟩]
          created := st.created + 1 }) := by
  unfold copyMessages
  rw [List.foldl_append, List.foldl_append, List.foldl_cons]
  rcases hA : pre.foldl (copyMessagesStep device) ⟨db, 0, 0, []⟩ with ⟨D, C, S, E⟩
  refine ⟨?_, ?_, ?_⟩
  · intro e he
    rw [copyMessagesStep_err device _ _ e he]
    simp only
    rw [copyMessagesLoop_normalize device post D C S (E ++ ["Message " ++ ts ++ ": " ++ e]),
      copyMessagesLoop_normalize device post D C S E]
    refine ⟨rfl, rfl, rfl, ?_⟩
    simp
  · intro t ht hd
    rw [copyMessagesStep_other device _ _ t ht hd]
    simp only
    rw [copyMessagesLoop_normalize device post D C (S + 1) E,
      copyMessagesLoop_normalize device post D C S E]
    refine ⟨rfl, rfl, ?_⟩
    simp [Nat.add_assoc, Nat.add_comm, Nat.add_left_comm]
  · intro t s st ht hd hex
    subst hd
    exact copyMessagesStep_create device st (ts, MsgData.str s) t _ ht (parseMsgData_str s) hex

/-- Witness for the amended C5 at concrete inputs: an unparseable
timestamp, a non-map non-string record, and a one-segment string. -/
theorem C5_amended_malformed_records_witness :
    ("Message " ++ "abc" ++ ": " ++ "invalid literal for int() with base 10: abc") ∈
      (copyMessages "dev1" ([] ++ ("abc", MsgData.str "x") ::
        [("200", MsgData.dict (some "sent") none none none)]) []).errors ∧
    (copyMessages "dev1" ([] ++ ("300", MsgData.other) ::
      [("200", MsgData.dict (some "sent") none none none)]) []).skipped =
      (copyMessages "dev1" ([] ++ [("200", MsgData.dict (some "sent") none none none)]) []).skipped
        + 1 ∧
    copyMessagesStep "dev1" ⟨[], 0, 0, []⟩ ("100", MsgData.str "sent") =
      { db := [⟨"dev1", normalizeMessageType (parseMessageString "sent").1,
          (parseMessageString "sent").2.1, (parseMessageString "sent").2.2, 100, false⟩]
        created := 1
        skipped := 0
        errors := [] } :=
  ⟨((C5_amended_malformed_records "dev1" [] []
      [("200", MsgData.dict (some "sent") none none none)] "abc" (MsgData.str "x")).1
      "invalid literal for int() with base 10: abc" rfl).2.2.2,
   ((C5_amended_malformed_records "dev1" [] []
      [("200", MsgData.dict (some "sent") none none none)] "300" MsgData.other).2.1
      300 rfl rfl).2.2,
   (C5_amended_malformed_records "dev1" [] [] [] "100" (MsgData.str "sent")).2.2
      100 "sent" ⟨[], 0, 0, []⟩ rfl rfl rfl⟩

/-! ## Lemmas about the notification loop -/

/-- The (device, timestamp) natural keys of a notification table. -/
def notifKeys (db : List NotificationRow) : List (String × Int) :=
  db.map fun r => (r.device, r.timestamp)

/-- The existence check agrees with membership of the natural key. -/
theorem notificationExists_iff (db : List NotificationRow) (d : String) (ts : Int) :
    notificationExists db d ts = true ↔ (d, ts) ∈ notifKeys db := by
  simp only [notificationExists, notifKeys, List.any_eq_true, List.mem_map, Bool.and_eq_true,
    beq_iff_eq]
  constructor
  · rintro ⟨r, hr, h1, h2⟩
    exact ⟨r, hr, by rw [h1, h2]⟩
  · rintro ⟨r, hr, h⟩
    exact ⟨r, hr, congrArg Prod.fst h, congrArg Prod.snd h⟩

/-- A key present in a table is present in any extension of it. -/
theorem notificationExists_append (db t : List NotificationRow) (d : String) (ts : Int)
    (h : notificationExists db d ts = true) :
    notificationExists (db ++ t) d ts = true := by
  simp only [notificationExists, List.any_append] at h ⊢
  rw [h, Bool.true_or]

/-- Step equation: a key that does not parse as an int appends the
per-record error string and changes nothing else. -/
theorem copyNotificationsStep_err (device : String) (st : NotifCopyState)
    (rec : String × NotifData) (e : String) (h : pyIntParse rec.1 = .error e) :
    copyNotificationsStep device st rec =
      { st with errors := st.errors ++ ["Notification " ++ rec.1 ++ ": " ++ e] } := by
  unfold copyNotificationsStep
  rw [h]

/-- Step equation: a record that is neither a map nor a string is
counted as skipped. -/
theorem copyNotificationsStep_other (device : String) (st : NotifCopyState)
    (rec : String × NotifData) (t : Int) (h : pyIntParse rec.1 = .ok t)
    (h2 : parseNotifData rec.2 = none) :
    copyNotificationsStep device st rec = { st with skipped := st.skipped + 1 } := by
  unfold copyNotificationsStep
  rw [h, h2]

/-- Step equation: a record with an empty package name is counted as
skipped, never created. -/
theorem copyNotificationsStep_nopkg (device : String) (st : NotifCopyState)
    (rec : String × NotifData) (t : Int) (pn : ParsedNotif) (h : pyIntParse rec.1 = .ok t)
    (h2 : parseNotifData rec.2 = some pn) (h3 : pn.package_name = "") :
    copyNotificationsStep device st rec = { st with skipped := st.skipped + 1 } := by
  unfold copyNotificationsStep
  rw [h, h2]
  simp [h3]

/-- Step equation: a record whose key already exists is counted as
skipped and the table is untouched. -/
theorem copyNotificationsStep_dup (device : String) (st : NotifCopyState)
    (rec : String × NotifData) (t : Int) (pn : ParsedNotif) (h : pyIntParse rec.1 = .ok t)
    (h2 : parseNotifData rec.2 = some pn) (h3 : pn.package_name ≠ "")
    (h4 : notificationExists st.db device t = true) :
    copyNotificationsStep device st rec = { st with skipped := st.skipped + 1 } := by
  unfold copyNotificationsStep
  rw [h, h2]
  simp [h3, h4]

/-- Step equation: a record with a nonempty package and a fresh key
appends the new row and counts as created. -/
theorem copyNotificationsStep_create (device : String) (st : NotifCopyState)
    (rec : String × NotifData) (t : Int) (pn : ParsedNotif) (h : pyIntParse rec.1 = .ok t)
    (h2 : parseNotifData rec.2 = some pn) (h3 : pn.package_name ≠ "")
    (h4 : notificationExists st.db device t = false) :
    copyNotificationsStep device st rec =
      { st with
        db := st.db ++ [⟨device, pn.package_name, pn.title, pn.text, t, pn.extra⟩]
        created := st.created + 1 } := by
  unfold copyNotificationsStep
  rw [h, h2]
  simp [h3, h4]

/-- The notification loop only appends rows, and every appended row
carries a natural key that was absent from the starting table: existing
rows are never modified, and a record whose key already exists never
produces a second row. -/
theorem copyNotificationsLoop_append_fresh (device : String) (db : List NotificationRow)
    (l : List (String × NotifData)) :
    ∀ st : NotifCopyState,
      (∃ t, st.db = db ++ t ∧ ∀ r ∈ t, notificationExists db r.device r.timestamp = false) →
      ∃ t, (l.foldl (copyNotificationsStep device) st).db = db ++ t ∧
        ∀ r ∈ t, notificationExists db r.device r.timestamp = false := by
  induction l with
  | nil => exact fun st h => h
  | cons x xs ih =>
    intro st hst
    rw [List.foldl_cons]
    refine ih _ ?_
    obtain ⟨t, hdb, hfresh⟩ := hst
    cases hp : pyIntParse x.1 with
    | error e => exact ⟨t, by rw [copyNotificationsStep_err device st x e hp]; exact hdb, hfresh⟩
    | ok ts =>
      cases hd : parseNotifData x.2 with
      | none =>
        exact ⟨t, by rw [copyNotificationsStep_other device st x ts hp hd]; exact hdb, hfresh⟩
      | some pn =>
        by_cases h3 : pn.package_name = ""
        · exact ⟨t, by rw [copyNotificationsStep_nopkg device st x ts pn hp hd h3]; exact hdb,
            hfresh⟩
        · by_cases h4 : notificationExists st.db device ts
          · exact ⟨t, by rw [copyNotificationsStep_dup device st x ts pn hp hd h3 h4]; exact hdb,
              hfresh⟩
          · refine ⟨t ++ [⟨device, pn.package_name, pn.title, pn.text, ts, pn.extra⟩], ?_, ?_⟩
            · rw [copyNotificationsStep_create device st x ts pn hp hd h3
                (by simpa using h4)]
              simp only
              rw [hdb, List.append_assoc]
            · intro r hr
              rcases List.mem_append.mp hr with hr1 | hr2
              · exact hfresh r hr1
              · rw [List.mem_singleton] at hr2
                subst hr2
                simp only
                cases hex : notificationExists db device ts with
                | false => rfl
                | true =>
                  exact absurd (notificationExists_append db t device ts hex)
                    (by rw [← hdb]; simpa using h4)

/-- One notification step preserves distinctness of the natural keys. -/
theorem copyNotificationsStep_nodup (device : String) (st : NotifCopyState)
    (rec : String × NotifData) (h : (notifKeys st.db).Nodup) :
    (notifKeys (copyNotificationsStep device st rec).db).Nodup := by
  unfold copyNotificationsStep
  cases pyIntParse rec.1 with
  | error e => simpa
  | ok ts =>
    cases parseNotifData rec.2 with
    | none => simpa
    | some pn =>
      by_cases h3 : pn.package_name = ""
      · simpa [h3]
      · have h3' : (pn.package_name == "") = false := by simpa using h3
        by_cases hex : notificationExists st.db device ts
        · simpa [h3', hex]
        · simp only [h3', hex, Bool.false_eq_true, if_false]
          have hnot : (device, ts) ∉ notifKeys st.db := fun hc =>
            hex ((notificationExists_iff st.db device ts).mpr hc)
          simp only [notifKeys, List.map_append, List.map_cons, List.map_nil]
          rw [List.nodup_append]
          refine ⟨h, List.nodup_singleton _, ?_⟩
          intro a ha hc
          rw [List.mem_singleton] at hc
          exact hnot (hc ▸ ha)

/-- The notification loop preserves distinctness of the natural keys. -/
theorem copyNotificationsLoop_nodup (device : String) (l : List (String × NotifData)) :
    ∀ st : NotifCopyState, (notifKeys st.db).Nodup →
      (notifKeys ((l.foldl (copyNotificationsStep device) st)).db).Nodup := by
  induction l with
  | nil => exact fun _ h => h
  | cons x xs ih =>
    intro st h
    rw [List.foldl_cons]
    exact ih _ (copyNotificationsStep_nodup device st x h)

/-- C4 counterexample: presenting a record for an existing (device,
timestamp) with new field values leaves the stored Notification
unchanged and counts the record as skipped: no field is updated. -/
theorem C4_counterexample :
    (copyNotifications "dev1"
      [("100", NotifData.dict [("package", "com.app"), ("title", "NewTitle"),
        ("text", "NewText")])]
      [⟨"dev1", "com.app", "OldTitle", "OldText", 100, []⟩]).db =
      [⟨"dev1", "com.app", "OldTitle", "OldText", 100, []⟩] ∧
    (copyNotifications "dev1"
      [("100", NotifData.dict [("package", "com.app"), ("title", "NewTitle"),
        ("text", "NewText")])]
      [⟨"dev1", "com.app", "OldTitle", "OldText", 100, []⟩]).created = 0 ∧
    (copyNotifications "dev1"
      [("100", NotifData.dict [("package", "com.app"), ("title", "NewTitle"),
        ("text", "NewText")])]
      [⟨"dev1", "com.app", "OldTitle", "OldText", 100, []⟩]).skipped = 1 ∧
    ((copyNotifications "dev1"
      [("100", NotifData.dict [("package", "com.app"), ("title", "NewTitle"),
        ("text", "NewText")])]
      [⟨"dev1", "com.app", "OldTitle", "OldText", 100, []⟩]).db.map
        (fun r => r.title)) = ["OldTitle"] := by
  refine ⟨?_, ?_, ?_, ?_⟩ <;> rfl

/-- C4 as amended: notification ingestion is not an upsert: existing
rows are never modified (the loop only appends), every appended row has
a natural key absent from the starting table (so a record whose
(device, timestamp) already exists is skipped, its field values
discarded), and distinctness of the keys is preserved, exactly like
Message. -/
theorem C4_amended_notifications_skip_existing (device : String)
    (recs : List (String × NotifData)) (db : List NotificationRow)
    (h : (notifKeys db).Nodup) :
    (∃ t, (copyNotifications device recs db).db = db ++ t ∧
      ∀ r ∈ t, notificationExists db r.device r.timestamp = false) ∧
    (notifKeys (copyNotifications device recs db).db).Nodup := by
  constructor
  · exact copyNotificationsLoop_append_fresh device db recs ⟨db, 0, 0, []⟩
      ⟨[], by simp, fun r hr => absurd hr (List.not_mem_nil r)⟩
  · exact copyNotificationsLoop_nodup device recs ⟨db, 0, 0, []⟩ h

/-- Witness for the amended C4 at a concrete input. -/
theorem C4_amended_notifications_skip_existing_witness :
    (notifKeys (copyNotifications "dev1"
      [("200", NotifData.dict [("package", "com.app")])]
      [⟨"dev1", "com.app", "T", "X", 100, []⟩]).db).Nodup :=
  (C4_amended_notifications_skip_existing "dev1"
    [("200", NotifData.dict [("package", "com.app")])]
    [⟨"dev1", "com.app", "T", "X", 100, []⟩] (by decide)).2

/-- C7: a notification record whose package name parses as empty (the
`package` field empty or missing, with the `packageName` fallback also
empty or missing) is counted as skipped and contributes no row, while
the rest of the batch is processed unchanged; in the concrete scenario
of the spec, 2 notifications of which one has an empty package give
created 1 and skipped 1. -/
theorem C7_empty_package_skipped (device : String) (st : NotifCopyState) (ts : String)
    (d : NotifData) (rest : List (String × NotifData)) :
    (∀ t pn, pyIntParse ts = .ok t → parseNotifData d = some pn → pn.package_name = "" →
      ((ts, d) :: rest).foldl (copyNotificationsStep device) st =
        rest.foldl (copyNotificationsStep device) { st with skipped := st.skipped + 1 }) ∧
    ((copyNotifications "dev1"
      [("100", NotifData.dict [("package", "com.app"), ("title", "T"), ("text", "X")]),
       ("200", NotifData.dict [("package", ""), ("title", "T2")])] []).created = 1 ∧
     (copyNotifications "dev1"
      [("100", NotifData.dict [("package", "com.app"), ("title", "T"), ("text", "X")]),
       ("200", NotifData.dict [("package", ""), ("title", "T2")])] []).skipped = 1) := by
  refine ⟨?_, rfl, rfl⟩
  intro t pn hp hd h3
  rw [List.foldl_cons, copyNotificationsStep_nopkg device st (ts, d) t pn hp hd h3]

/-- Witness for C7 at a concrete input. -/
theorem C7_empty_package_skipped_witness :
    ([("100", NotifData.dict [("package", "")])].foldl (copyNotificationsStep "dev1")
      (⟨[], 0, 0, []⟩ : NotifCopyState)) =
      [].foldl (copyNotificationsStep "dev1") (⟨[], 0, 1, []⟩ : NotifCopyState) :=
  (C7_empty_package_skipped "dev1" ⟨[], 0, 0, []⟩ "100" (NotifData.dict [("package", "")])
    []).1 100 ⟨"", "", "", []⟩ rfl rfl rfl

/-! ## The pruning policy of the message fetch -/

/-- The comparator of the pruning sort is transitive. -/
theorem keyRank_le_trans (a b c : String × α) :
    (keyRank b.1 ≤ keyRank a.1) → (keyRank c.1 ≤ keyRank b.1) → (keyRank c.1 ≤ keyRank a.1) :=
  fun h1 h2 => le_trans h2 h1

/-- C2: with limit 0 the fetched map is returned unpruned; with a
positive limit N smaller than the map size M, the working set is the
take of length N of the stable numerically-descending sort of the
entries by key rank (non-numeric keys rank 0), it has exactly N
entries, every kept entry ranks at least as high as every dropped
entry, and kept plus dropped together are a permutation of the fetched
map; a key that is not all digits ranks 0. -/
theorem C2_keep_latest (msgs : List (String × α)) (N : Nat) :
    (get_messages_limit msgs 0 = msgs) ∧
    (∀ k, pyStrIsDigit k = false → keyRank k = 0) ∧
    (0 < N → N < msgs.length →
      get_messages_limit msgs N =
        (msgs.mergeSort fun a b => keyRank b.1 ≤ keyRank a.1).take N ∧
      (get_messages_limit msgs N).length = N ∧
      (∀ x ∈ get_messages_limit msgs N,
        ∀ y ∈ (msgs.mergeSort fun a b => keyRank b.1 ≤ keyRank a.1).drop N,
          keyRank y.1 ≤ keyRank x.1) ∧
      (get_messages_limit msgs N ++
        (msgs.mergeSort fun a b => keyRank b.1 ≤ keyRank a.1).drop N).Perm msgs) := by
  refine ⟨by simp [get_messages_limit], ?_, ?_⟩
  · intro k hk
    simp [keyRank, hk]
  · intro hN hM
    have hne : msgs.isEmpty = false := by
      cases msgs with
      | nil => simp at hM
      | cons a l => rfl
    have hN0 : (N == 0) = false := by simpa using Nat.pos_iff_ne_zero.mp hN
    have heq : get_messages_limit msgs N =
        (msgs.mergeSort fun a b => keyRank b.1 ≤ keyRank a.1).take N := by
      unfold get_messages_limit
      rw [hne, hN0]
      rfl
    have hlen : (msgs.mergeSort fun a b => keyRank b.1 ≤ keyRank a.1).length = msgs.length :=
      (List.mergeSort_perm msgs _).length_eq
    have hsorted := @List.sorted_mergeSort (String × α)
      (fun a b => decide (keyRank b.1 ≤ keyRank a.1))
      (fun a b c h1 h2 => by
        simp only [decide_eq_true_eq] at h1 h2 ⊢
        exact keyRank_le_trans a b c h1 h2)
      (fun a b => by
        simp only [Bool.or_eq_true, decide_eq_true_eq]
        exact Nat.le_total (keyRank b.1) (keyRank a.1))
      msgs
    refine ⟨heq, ?_, ?_, ?_⟩
    · rw [heq, List.length_take, hlen]
      omega
    · intro x hx y hy
      rw [heq] at hx
      have := List.take_append_drop N (msgs.mergeSort fun a b => keyRank b.1 ≤ keyRank a.1)
      rw [← this] at hsorted
      have hpa := (List.pairwise_append.mp hsorted).2.2 x hx y hy
      simpa using hpa
    · rw [heq, List.take_append_drop]
      exact List.mergeSort_perm msgs _

/-- Witness for C2 at a concrete input: three entries, limit 2 and
limit 0, with one non-numeric key. -/
theorem C2_keep_latest_witness :
    get_messages_limit [("100", 1), ("abc", 2), ("300", 3)] 0 =
      [("100", 1), ("abc", 2), ("300", 3)] ∧
    keyRank "abc" = 0 ∧
    (get_messages_limit [("100", 1), ("abc", 2), ("300", 3)] 2).length = 2 :=
  ⟨(C2_keep_latest [("100", (1 : Nat)), ("abc", 2), ("300", 3)] 0).1,
   (C2_keep_latest [("100", (1 : Nat)), ("abc", 2), ("300", 3)] 0).2.1 "abc" (by decide),
   ((C2_keep_latest [("100", (1 : Nat)), ("abc", 2), ("300", 3)] 2).2.2
     (by decide) (by decide)).2.1⟩

/-! ## Lemmas about the delimited string form -/

/-- Without the separator, the break finds nothing. -/
theorem pyBreak_not_mem (sep : Char) (cs : List Char) (h : sep ∉ cs) :
    pyBreak sep cs = none := by
  induction cs with
  | nil => rfl
  | cons c cs ih =>
    unfold pyBreak
    have hc : ¬c = sep := fun hc => h (hc ▸ List.mem_cons_self c cs)
    rw [if_neg hc, ih (fun hm => h (List.mem_cons_of_mem c hm))]

/-- The break splits at the first separator occurrence. -/
theorem pyBreak_append (sep : Char) (a r : List Char) (h : sep ∉ a) :
    pyBreak sep (a ++ sep :: r) = some (a, r) := by
  induction a with
  | nil => simp [pyBreak]
  | cons c cs ih =>
    have hc : ¬c = sep := fun hc => h (hc ▸ List.mem_cons_self c cs)
    rw [List.cons_append]
    unfold pyBreak
    rw [if_neg hc, ih (fun hm => h (List.mem_cons_of_mem c hm))]

/-- String append acts as list append on the character lists. -/
theorem toList_append (s t : String) : (s ++ t).toList = s.toList ++ t.toList :=
  String.data_append s t

/-- Rebuilding a string from its character list is the identity. -/
theorem mk_toList (s : String) : String.mk s.data = s := rfl

/-- A maxsplit-2 split of a string with two separators and
separator-free first and second parts gives exactly the three parts. -/
theorem pySplit_two_seps (a b c : String) (ha : '~' ∉ a.toList) (hb : '~' ∉ b.toList) :
    pySplit (a ++ "~" ++ b ++ "~" ++ c) '~' 2 = [a, b, c] := by
  unfold pySplit
  have hl : (a ++ "~" ++ b ++ "~" ++ c).toList =
      a.toList ++ '~' :: (b.toList ++ '~' :: c.toList) := by
    rw [toList_append, toList_append, toList_append, toList_append]
    simp
  rw [hl]
  have h1 : pyBreak '~' (a.data ++ '~' :: (b.data ++ '~' :: c.data)) =
      some (a.data, b.data ++ '~' :: c.data) := pyBreak_append '~' a.data _ ha
  have h2 : pyBreak '~' (b.data ++ '~' :: c.data) = some (b.data, c.data) :=
    pyBreak_append '~' b.data _ hb
  simp [pySplitAux, h1, h2, mk_toList]

/-- A maxsplit-2 split of a string with one separator and
separator-free parts gives the two parts. -/
theorem pySplit_one_sep (a b : String) (ha : '~' ∉ a.toList) (hb : '~' ∉ b.toList) :
    pySplit (a ++ "~" ++ b) '~' 2 = [a, b] := by
  unfold pySplit
  have hl : (a ++ "~" ++ b).toList = a.toList ++ '~' :: b.toList := by
    rw [toList_append, toList_append]
    simp
  rw [hl]
  have h1 : pyBreak '~' (a.data ++ '~' :: b.data) = some (a.data, b.data) :=
    pyBreak_append '~' a.data _ ha
  have h2 : pyBreak '~' b.data = none := pyBreak_not_mem '~' b.data hb
  simp [pySplitAux, h1, h2, mk_toList]

/-- A maxsplit-2 split of a separator-free string gives the string. -/
theorem pySplit_no_sep (a : String) (ha : '~' ∉ a.toList) :
    pySplit a '~' 2 = [a] := by
  unfold pySplit
  have h1 : pyBreak '~' a.data = none := pyBreak_not_mem '~' a.data ha
  simp [pySplitAux, h1, mk_toList]

/-- C6: the string form of a message splits on the tilde character into
up to 3 parts, mapped in order onto message_type, phone, body, with
missing parts defaulting to the empty string; the concrete example of
the spec parses as stated; and a parsed type that is neither received
nor sent is normalized to received. -/
theorem C6_string_message_parse :
    (parseMsgData (MsgData.str "sent~+15551234~Hello") =
      some ⟨"sent", "+15551234", "Hello", false⟩ ∧
      normalizeMessageType "sent" = "sent") ∧
    (∀ a b c : String, '~' ∉ a.toList → '~' ∉ b.toList →
      parseMessageString (a ++ "~" ++ b ++ "~" ++ c) = (a, b, c)) ∧
    (∀ a b : String, '~' ∉ a.toList → '~' ∉ b.toList →
      parseMessageString (a ++ "~" ++ b) = (a, b, "")) ∧
    (∀ a : String, '~' ∉ a.toList → parseMessageString a = (a, "", "")) ∧
    (∀ t : String, t ≠ "received" → t ≠ "sent" → normalizeMessageType t = "received") := by
  refine ⟨⟨rfl, rfl⟩, ?_, ?_, ?_, ?_⟩
  · intro a b c ha hb
    rw [parseMessageString, pySplit_two_seps a b c ha hb]
    rfl
  · intro a b ha hb
    rw [parseMessageString, pySplit_one_sep a b ha hb]
    rfl
  · intro a ha
    rw [parseMessageString, pySplit_no_sep a ha]
    rfl
  · intro t h1 h2
    unfold normalizeMessageType
    rw [if_neg]
    rintro (h | h) <;> [exact h1 h; exact h2 h]

/-- Witness for C6 at concrete inputs. -/
theorem C6_string_message_parse_witness :
    parseMessageString ("sent" ++ "~" ++ "+15551234" ++ "~" ++ "Hello") =
      ("sent", "+15551234", "Hello") ∧
    parseMessageString ("sent" ++ "~" ++ "+1") = ("sent", "+1", "") ∧
    parseMessageString "sent" = ("sent", "", "") ∧
    normalizeMessageType "draft" = "received" :=
  ⟨C6_string_message_parse.2.1 "sent" "+15551234" "Hello" (by decide) (by decide),
   C6_string_message_parse.2.2.1 "sent" "+1" (by decide) (by decide),
   C6_string_message_parse.2.2.2.1 "sent" (by decide),
   C6_string_message_parse.2.2.2.2 "draft" (by decide) (by decide)⟩

/-! ## isActive normalization and keep_latest defaults -/

/-- C8: a string value of isActive normalizes to true exactly when its
lowercase form is one of opened, active, true, 1, yes; every non-string
value goes through Python truthiness. -/
theorem C8_is_active_normalization :
    (∀ s : String, normalize_is_active (.str s) = true ↔
      pyLower s ∈ ["opened", "active", "true", "1", "yes"]) ∧
    (∀ v : PyVal, (∀ s, v ≠ .str s) → normalize_is_active v = pyTruthy v) := by
  constructor
  · intro s
    simp [normalize_is_active]
  · intro v hv
    cases v with
    | str s => exact absurd rfl (hv s)
    | bool b => rfl
    | int n => rfl
    | none => rfl

/-- Witness for C8 at concrete inputs: a mixed-case marker string and a
non-string value. -/
theorem C8_is_active_normalization_witness :
    normalize_is_active (.str "OPENED") = true ∧
    normalize_is_active (.int 5) = pyTruthy (.int 5) :=
  ⟨(C8_is_active_normalization.1 "OPENED").mpr (by decide),
   C8_is_active_normalization.2 (.int 5) (fun _ h => PyVal.noConfusion h)⟩

/-- C10: when the options map has no keep_latest key, the messages
command computes keep_latest 100 and the contacts command computes
keep_latest 0. -/
theorem C10_keep_latest_defaults (options : List (String × Nat))
    (h : options.lookup "keep_latest" = none) :
    messages_run_keep_latest options = 100 ∧ contacts_run_keep_latest options = 0 := by
  unfold messages_run_keep_latest contacts_run_keep_latest dictGetD
  rw [h]
  exact ⟨rfl, rfl⟩

/-- Witness for C10 at the empty options map. -/
theorem C10_keep_latest_defaults_witness :
    messages_run_keep_latest [] = 100 ∧ contacts_run_keep_latest [] = 0 :=
  C10_keep_latest_defaults [] rfl

end FastPay
